import Mathlib

/-!
Shallow embedding of the deduplication / merge engine of the eCharm
charging-station pipeline (`charging_stations_pipelines/pipelines/_merger.py`
together with the ORM model `charging_stations_pipelines/models/station.py`).

The geospatial backend (PostGIS) is abstracted as a distance function
`dist : Point → Point → Nat` (geodesic metres), and the attribute matcher
(`attribute_match_thresholds_strategy`, an external collaborator of the
merger) as an opaque-in-the-model predicate parameter.  Pandas `NaN` cells
are modelled as `Option.none`; a pandas `DataFrame` row coming out of the
candidate SQL query is a `MergeRow`.  Python exceptions (the uncaught
`AttributeError` on `point.wkt` when the priority lookup returns `None`,
and SQL errors on an invalid seed WKT) are modelled with `Except`.
-/

/-- A geographic point; the geodesic metric over it is a parameter. -/
abbrev Point := Int × Int

/-- Columns of `Address` in `models/station.py` used by the merger query. -/
structure Address where
  street : Option String
  town : Option String
deriving Repr, DecidableEq

/-- Column of `Charging` in `models/station.py` used by the merger query. -/
structure Charging where
  capacity : Option Nat
deriving Repr, DecidableEq

/-- Row of the `stations` table of `models/station.py`, with its one-to-one
`Address`/`Charging` sub-records and its `MergedStationSource` provenance
rows (`source_stations`, a list of `duplicate_source_id` strings). -/
structure Station where
  id : Nat
  source_id : String
  data_source : String
  operator : Option String
  point : Option Point
  country_code : String
  is_merged : Bool
  merge_status : Option String
  address : Option Address
  charging : Option Charging
  source_stations : List String
deriving Repr, DecidableEq

/-- A row of the `find_surrounding_stations_sql` result set in
`StationMerger.find_duplicates`: station columns joined (LEFT JOIN) with
address and charging columns plus the computed `distance`. -/
structure MergeRow where
  station_id : Nat
  source_id : String
  data_source : String
  point : Option Point
  operator : Option String
  capacity : Option Nat
  street : Option String
  town : Option String
  distance : Nat
deriving Repr, DecidableEq

/-- The WHERE clause of `find_surrounding_stations_sql`:
`ST_Dwithin(point, center, radius) AND NOT is_merged AND
(merge_status <> 'is_duplicate' OR merge_status is null) AND
country_code = cc`.  A station with a NULL point matches no
`ST_Dwithin` condition and is never returned. -/
def stationWithin (dist : Point → Point → Nat) (center : Point) (radius : Nat)
    (cc : String) (s : Station) : Bool :=
  match s.point with
  | some p =>
      decide (dist p center ≤ radius) && !s.is_merged &&
        !(s.merge_status == some "is_duplicate") && (s.country_code == cc)
  | none => false

/-- The SELECT list of `find_surrounding_stations_sql`: project a station
(with its LEFT-JOINed address / charging) onto a result row. -/
def toRow (dist : Point → Point → Nat) (center : Point) (s : Station) : MergeRow :=
  { station_id := s.id
    source_id := s.source_id
    data_source := s.data_source
    point := s.point
    operator := s.operator
    capacity := s.charging.bind (·.capacity)
    street := s.address.bind (·.street)
    town := s.address.bind (·.town)
    distance := match s.point with
      | some p => dist p center
      | none => 0 }

/-- The full candidate query of `StationMerger.find_duplicates`. -/
def find_surrounding (dist : Point → Point → Nat) (db : List Station)
    (center : Point) (radius : Nat) (cc : String) : List MergeRow :=
  (db.filter (stationWithin dist center radius cc)).map (toRow dist center)

/-- The external attribute matcher
(`attribute_match_thresholds_strategy.attribute_match_thresholds_duplicates`),
abstracted: given the current station row, a candidate row and
`max_distance`, decide whether the candidate is a duplicate. -/
def Matcher := MergeRow → MergeRow → Nat → Bool

/-- Model of `StationMerger.find_duplicates` (the used `filter_by_source_id = False`
path): run the candidate query; on an empty result return empty frames;
otherwise locate the current station among the rows (pandas `squeeze` on a
primary-key filter, i.e. `head?`), and when at least two rows came back and
the current station is among them, pass every other row to the matcher and
keep the confirmed duplicates. -/
def find_duplicates (dist : Point → Point → Nat) (matcher : Matcher)
    (db : List Station) (current_station_id : Nat) (center : Point)
    (radius : Nat) (cc : String) : List MergeRow × Option MergeRow :=
  let nearby := find_surrounding dist db center radius cc
  if nearby.isEmpty then ([], none)
  else
    let current? := (nearby.filter (fun r => r.station_id == current_station_id)).head?
    if 2 ≤ nearby.length then
      match current? with
      | some cur =>
          let cands := nearby.filter (fun r => r.station_id != current_station_id)
          (cands.filter (fun c => matcher cur c radius), some cur)
      | none => ([], none)
    else ([], current?)

/-- Model of `get_attribute_by_priority` in `StationMerger._merge_duplicates`:
walk the priority list of source names; for the first source having a
cluster member with the attribute present (pandas `dropna`), return that
member's value (`iloc[0]`); if no source yields a value, return `None`.
The attribute projection `get` is the column selection. -/
def get_attribute_by_priority (rows : List MergeRow) (get : MergeRow → Option α) :
    List String → Option α
  | [] => none
  | src :: rest =>
      match (rows.filter (fun r => r.data_source == src)).filterMap get with
      | [] => get_attribute_by_priority rows get rest
      | v :: _ => some v

/-- Recursion core of pandas `Series.unique()`: `seen` accumulates the
values already emitted. -/
def pdUniqueAux (seen : List String) : List String → List String
  | [] => []
  | x :: xs => if x ∈ seen then pdUniqueAux seen xs else x :: pdUniqueAux (x :: seen) xs

/-- Pandas `Series.unique()`: deduplicate, keeping the first occurrence of
each value in order of appearance. -/
def pdUnique (l : List String) : List String := pdUniqueAux [] l

/-- The input of `StationMerger._merge_duplicates`: either a single pandas
`Series` (the seed station alone) or a `DataFrame` of rows
(duplicates followed by the seed station). -/
inductive MergeInput where
  | single (row : MergeRow)
  | frame (rows : List MergeRow)
deriving Repr, DecidableEq

/-- The error raised by `point.wkt` when `point` is `None`
(an uncaught Python `AttributeError`). -/
def wktOfNoneError : String := "AttributeError: NoneType object has no attribute wkt"

/-- Model of `StationMerger._merge_duplicates`.  Here `gov` is `self.gov_source`, `cc` is
`self.country_code`, `freshId` the autoincremented primary key the insert
will receive.  Sets `country_code` and `is_merged` unconditionally; for a
single `Series` copies `data_source`/`point`/`operator` and prefixes the
source id with `MERGED_`; for a `DataFrame` joins the pandas-unique source
names with commas, joins all source ids behind `MERGED_`, resolves the
point with priority `[OSM, OCM, gov]` and the operator with the default
priority `[gov, OCM, OSM]`.  Accessing `.wkt` on a `None` point raises.
No `MergedStationSource` rows are produced (TODO left in the source). -/
def _merge_duplicates (gov cc : String) (freshId : Nat) :
    MergeInput → Except String Station
  | .single row =>
      match row.point with
      | none => .error wktOfNoneError
      | some p =>
          .ok { id := freshId
                source_id := "MERGED_" ++ row.source_id
                data_source := row.data_source
                operator := row.operator
                point := some p
                country_code := cc
                is_merged := true
                merge_status := none
                address := none
                charging := none
                source_stations := [] }
  | .frame rows =>
      match get_attribute_by_priority rows (·.point) ["OSM", "OCM", gov] with
      | none => .error wktOfNoneError
      | some p =>
          .ok { id := freshId
                source_id := "MERGED_" ++ String.intercalate "," (rows.map (·.source_id))
                data_source := String.intercalate "," (pdUnique (rows.map (·.data_source)))
                operator := get_attribute_by_priority rows (·.operator) [gov, "OCM", "OSM"]
                point := some p
                country_code := cc
                is_merged := true
                merge_status := none
                address := none
                charging := none
                source_stations := [] }

/-- The next autoincrement value for the `stations` primary key. -/
def freshId (db : List Station) : Nat :=
  (db.map (·.id)).foldr (fun a b => max a b) 0 + 1

/-- The `country_code_to_gov_source` dictionary of `StationMerger.__init__`;
`none` models the raised `Exception` for an unknown country code. -/
def country_code_to_gov_source : String → Option String
  | "DE" => some "BNA"
  | "FR" => some "FRGOV"
  | "GB" => some "GBGOV"
  | "IT" => some ""
  | _ => none

/-- The ambient state of one `StationMerger`: configuration plus the two
external collaborators (geodesic distance, attribute matcher) and the
storage layer's per-cluster commit outcome (`commitOk` is keyed by the
seed station id; `false` makes `session.commit()` raise, upon which
`write_session` logs and rolls back). -/
structure MergerConfig where
  gov : String
  cc : String
  radius : Nat
  dist : Point → Point → Nat
  matcher : Matcher
  commitOk : Nat → Bool

/-- Mark `merge_status = 'is_duplicate'` on every station whose id is in
`station_ids` (the ORM bulk `update` in `StationMerger.run`). -/
def flagDuplicates (station_ids : List Nat) (db : List Station) : List Station :=
  db.map (fun s =>
    if station_ids.contains s.id then { s with merge_status := some "is_duplicate" } else s)

/-- The per-cluster tail of the loop body of `StationMerger.run`: issue the
`merge_status` update, build the merged station, `session.add` it and
`write_session` (commit).  The update and insert become visible only if the
commit succeeds; a failed commit is rolled back (state unchanged) and the
loop continues; an exception from `_merge_duplicates` propagates (nothing
was committed). -/
def commitCluster (cfg : MergerConfig) (db : List Station) (seedId : Nat)
    (input : MergeInput) (station_ids : List Nat) : Except String (List Station) :=
  match _merge_duplicates cfg.gov cfg.cc (freshId db) input with
  | .error e => .error e
  | .ok merged =>
      if cfg.commitOk seedId then
        .ok (flagDuplicates station_ids db ++ [merged])
      else
        .ok db

/-- One iteration of the loop in `StationMerger.run` for the seed row
`(station_id, point)` of the outer station list.  A seed with a NULL point
makes `ST_PointFromText` fail, aborting the run.  Otherwise find the
duplicates; when the returned current-station `Series` is empty nothing is
merged; with no duplicates the single `Series` is merged under
`station_ids = [seed id]`; with duplicates the `DataFrame`
`duplicates.append(current)` is merged under its `station_id_col` list. -/
def processSeed (cfg : MergerConfig) (db : List Station) (seed : Nat × Option Point) :
    Except String (List Station) :=
  match seed.2 with
  | none => .error "InternalError: parse error - invalid geometry"
  | some center =>
      match find_duplicates cfg.dist cfg.matcher db seed.1 center cfg.radius cfg.cc with
      | (_, none) => .ok db
      | ([], some cur) => commitCluster cfg db seed.1 (.single cur) [seed.1]
      | (d :: ds, some cur) =>
          let rows := (d :: ds) ++ [cur]
          commitCluster cfg db seed.1 (.frame rows) (rows.map (·.station_id))

/-- Fold `processSeed` over the seed list; the first uncaught exception
aborts the run. -/
def runSeeds (cfg : MergerConfig) :
    List Station → List (Nat × Option Point) → Except String (List Station)
  | db, [] => .ok db
  | db, seed :: rest =>
      match processSeed cfg db seed with
      | .error e => .error e
      | .ok db' => runSeeds cfg db' rest

/-- Insertion step of `gdf.sort_values(by=['station_id'])`. -/
def insertById (x : Nat × Option Point) :
    List (Nat × Option Point) → List (Nat × Option Point)
  | [] => [x]
  | y :: ys => if x.1 ≤ y.1 then x :: y :: ys else y :: insertById x ys

/-- Model of `gdf.sort_values(by=['station_id'])`: sort seed rows by station id. -/
def sortById : List (Nat × Option Point) → List (Nat × Option Point)
  | [] => []
  | x :: xs => insertById x (sortById xs)

/-- Model of `get_stations_list_sql`: ids and points of the country's not-yet-merged
stations, sorted ascending by id. -/
def seedsOf (cc : String) (db : List Station) : List (Nat × Option Point) :=
  sortById ((db.filter (fun s => !s.is_merged && (s.country_code == cc))).map
    (fun s => (s.id, s.point)))

/-- Model of `StationMerger.run` (the production, non-test path). -/
def run (cfg : MergerConfig) (db : List Station) : Except String (List Station) :=
  runSeeds cfg db (seedsOf cfg.cc db)

/-! Concrete instances used to exercise the model: a taxicab metric as the
ambient distance, and small databases of stations. -/

/-- A concrete geodesic-metric stand-in (taxicab distance). -/
def demoDist : Point → Point → Nat := fun p q => (p.1 - q.1).natAbs + (p.2 - q.2).natAbs

/-- A freshly mapped station row, as the source-specific pipelines produce
them: not merged, no merge status, no provenance rows. -/
def mkStation (i : Nat) (sid ds : String) (op : Option String) (pt : Option Point)
    (cc : String) : Station :=
  { id := i, source_id := sid, data_source := ds, operator := op, point := pt,
    country_code := cc, is_merged := false, merge_status := none,
    address := none, charging := none, source_stations := [] }

/-- A candidate-query row built directly (for exercising the merge resolver
on its own). -/
def mkRow (i : Nat) (sid ds : String) (op : Option String) (pt : Option Point) : MergeRow :=
  { station_id := i, source_id := sid, data_source := ds, point := pt, operator := op,
    capacity := none, street := none, town := none, distance := 0 }

/-- A matcher that confirms every candidate. -/
def m_all : Matcher := fun _ _ _ => true

/-- A matcher that confirms exactly the candidates whose computed distance
column is within the given maximum; it agrees with `m_all` on every row the
candidate query can return. -/
def m_within : Matcher := fun _ c maxDist => decide (c.distance ≤ maxDist)

/-- A German merger over the demo metric whose commits always succeed. -/
def cfgDE : MergerConfig :=
  { gov := "BNA", cc := "DE", radius := 100, dist := demoDist,
    matcher := m_all, commitOk := fun _ => true }

/-- The same merger with a storage layer whose commits always fail. -/
def cfgDEfail : MergerConfig := { cfgDE with commitOk := fun _ => false }

/-- Two nearby German stations forming one two-member cluster. -/
def dbPair : List Station :=
  [ mkStation 1 "S1" "OSM" (some "opA") (some (0, 0)) "DE",
    mkStation 2 "S2" "OCM" none (some (0, 1)) "DE" ]

/-- The committed state after merging `dbPair`: both members flagged, one
merged record, and no `MergedStationSource` provenance rows anywhere. -/
def dbPairPost : List Station :=
  [ { mkStation 1 "S1" "OSM" (some "opA") (some (0, 0)) "DE" with
        merge_status := some "is_duplicate" },
    { mkStation 2 "S2" "OCM" none (some (0, 1)) "DE" with
        merge_status := some "is_duplicate" },
    { mkStation 3 "MERGED_S2,S1" "OCM,OSM" (some "opA") (some (0, 0)) "DE" with
        is_merged := true } ]

/-- A cluster whose member source names arrive in non-sorted discovery
order: the OSM duplicate is discovered before the governmental seed joins
the frame last. -/
def dbMix : List Station :=
  [ mkStation 1 "S1" "BNA" (some "opB") (some (0, 0)) "DE",
    mkStation 2 "S2" "OSM" none (some (0, 1)) "DE" ]

/-- The committed state after merging `dbMix`: the merged `data_source` is
`OSM,BNA`, in discovery order, not sorted. -/
def dbMixPost : List Station :=
  [ { mkStation 1 "S1" "BNA" (some "opB") (some (0, 0)) "DE" with
        merge_status := some "is_duplicate" },
    { mkStation 2 "S2" "OSM" none (some (0, 1)) "DE" with
        merge_status := some "is_duplicate" },
    { mkStation 3 "MERGED_S2,S1" "OSM,BNA" (some "opB") (some (0, 1)) "DE" with
        is_merged := true } ]

/-- One lone German station. -/
def dbSolo : List Station := [ mkStation 1 "S1" "OSM" none (some (5, 5)) "DE" ]

/-- The committed state after running the merger over `dbSolo`. -/
def dbSoloPost : List Station :=
  [ { mkStation 1 "S1" "OSM" none (some (5, 5)) "DE" with
        merge_status := some "is_duplicate" },
    { mkStation 2 "MERGED_S1" "OSM" none (some (5, 5)) "DE" with
        is_merged := true } ]

/-- Two nearby stations whose `data_source` (`FOO`) is outside every
priority list, plus a distant third station: the first cluster's point
resolution finds no value. -/
def dbNoPrio : List Station :=
  [ mkStation 1 "X1" "FOO" none (some (0, 0)) "DE",
    mkStation 2 "X2" "FOO" none (some (0, 1)) "DE",
    mkStation 3 "X3" "OSM" none (some (1000000, 0)) "DE" ]

/-- A cluster frame with members from OSM, OCM and the German governmental
source, where only the OSM member carries a point and every member carries
an operator. -/
def rowsPrio : List MergeRow :=
  [ mkRow 1 "A" "OSM" (some "osmOp") (some (1, 2)),
    mkRow 2 "B" "OCM" (some "ocmOp") none,
    mkRow 3 "C" "BNA" (some "bnaOp") none ]

/-- The merged record the resolver produces for `rowsPrio`: the operator
comes from the governmental member, the point from the OSM member. -/
def stPrio : Station :=
  { mkStation 7 "MERGED_A,B,C" "OSM,OCM,BNA" (some "bnaOp") (some (1, 2)) "DE" with
      is_merged := true }

/-- A cluster frame no member of which carries an operator. -/
def rowsNoOp : List MergeRow :=
  [ mkRow 1 "A" "OSM" none (some (1, 2)),
    mkRow 2 "B" "OCM" none none,
    mkRow 3 "C" "BNA" none none ]

/-- The merged record the resolver produces for `rowsNoOp`: its operator
stays unset. -/
def stNoOp : Station :=
  { mkStation 7 "MERGED_A,B,C" "OSM,OCM,BNA" none (some (1, 2)) "DE" with
      is_merged := true }

/-- A cluster frame whose OSM member lacks a point while the OCM and
governmental members have one. -/
def rowsPtOcm : List MergeRow :=
  [ mkRow 1 "A" "OSM" (some "osmOp") none,
    mkRow 2 "B" "OCM" (some "ocmOp") (some (3, 4)),
    mkRow 3 "C" "BNA" (some "bnaOp") (some (5, 6)) ]

/-- The merged record the resolver produces for `rowsPtOcm`: the point
falls through to the OCM member. -/
def stPtOcm : Station :=
  { mkStation 7 "MERGED_A,B,C" "OSM,OCM,BNA" (some "bnaOp") (some (3, 4)) "DE" with
      is_merged := true }

/-- A cluster frame where only the governmental member carries a point. -/
def rowsPtGov : List MergeRow :=
  [ mkRow 1 "A" "OSM" (some "osmOp") none,
    mkRow 2 "B" "OCM" (some "ocmOp") none,
    mkRow 3 "C" "BNA" (some "bnaOp") (some (5, 6)) ]

/-- The merged record the resolver produces for `rowsPtGov`: the point
falls through past OSM and OCM to the governmental member. -/
def stPtGov : Station :=
  { mkStation 7 "MERGED_A,B,C" "OSM,OCM,BNA" (some "bnaOp") (some (5, 6)) "DE" with
      is_merged := true }

/-- Two in-radius stations and one 5000 metres away from the seed. -/
def dbRadius : List Station :=
  [ mkStation 1 "S1" "OSM" none (some (0, 0)) "DE",
    mkStation 2 "S2" "OCM" none (some (0, 50)) "DE",
    mkStation 3 "S3" "BNA" none (some (5000, 0)) "DE" ]

/-- Lexicographic comparison of character lists. -/
def charListLe : List Char → List Char → Bool
  | [], _ => true
  | _ :: _, [] => false
  | a :: as, b :: bs => if a < b then true else if b < a then false else charListLe as bs

/-- Lexicographic order on strings. -/
def strLe (a b : String) : Bool := charListLe a.toList b.toList

/-- Insertion step for sorting strings. -/
def insertStr (x : String) : List String → List String
  | [] => [x]
  | y :: ys => if strLe x y then x :: y :: ys else y :: insertStr x ys

/-- Insertion sort over strings. -/
def sortStr (l : List String) : List String := l.foldr insertStr []

/-- Modelled from the spec: the claimed `data_source` of a multi-member
merged record, the sorted-unique, comma-joined list of the member source
names — for comparison with what the code computes. -/
def spec_sorted_unique_join (names : List String) : String :=
  String.intercalate "," (sortStr (pdUnique names))

theorem stationWithin_iff {dist : Point → Point → Nat} {center : Point} {radius : Nat}
    {cc : String} {s : Station} :
    stationWithin dist center radius cc s = true ↔
      ∃ p, s.point = some p ∧ dist p center ≤ radius ∧ s.is_merged = false ∧
        s.merge_status ≠ some "is_duplicate" ∧ s.country_code = cc := by
  cases hp : s.point with
  | none => simp [stationWithin, hp]
  | some p =>
      simp [stationWithin, hp, Bool.and_eq_true, decide_eq_true_iff, and_assoc]

theorem mem_find_surrounding {dist : Point → Point → Nat} {db : List Station}
    {center : Point} {radius : Nat} {cc : String} {r : MergeRow} :
    r ∈ find_surrounding dist db center radius cc ↔
      ∃ s, s ∈ db ∧ stationWithin dist center radius cc s = true ∧ r = toRow dist center s := by
  simp only [find_surrounding, List.mem_map, List.mem_filter]
  constructor
  · rintro ⟨s, ⟨hs, hw⟩, hr⟩
    exact ⟨s, hs, hw, hr.symm⟩
  · rintro ⟨s, hs, hw, hr⟩
    exact ⟨s, ⟨hs, hw⟩, hr.symm⟩

/-- Claim C6: the duplicate-candidate query returns only stations within `radius`
of the seed's point that are not already merged and not flagged `is_duplicate`,
joined with their Address and Charging attributes and restricted to the seed's
country code; and `find_duplicates` is insensitive to the matcher's verdict on
anything outside the query result, so a station outside the radius is never
passed to the attribute matcher. -/
theorem C6_candidate_query_radius_and_flags (dist : Point → Point → Nat) (db : List Station) (center : Point)
    (radius : Nat) (cc : String) :
    (∀ r ∈ find_surrounding dist db center radius cc,
        ∃ s, s ∈ db ∧ r = toRow dist center s ∧ s.is_merged = false ∧
          s.merge_status ≠ some "is_duplicate" ∧ s.country_code = cc ∧
          ∃ p, s.point = some p ∧ dist p center ≤ radius ∧ r.distance = dist p center ∧
            r.capacity = s.charging.bind (·.capacity) ∧
            r.street = s.address.bind (·.street) ∧ r.town = s.address.bind (·.town)) ∧
    (∀ m₁ m₂ : Matcher, ∀ cid : Nat,
        (∀ cur c, c ∈ find_surrounding dist db center radius cc →
            m₁ cur c radius = m₂ cur c radius) →
        find_duplicates dist m₁ db cid center radius cc =
          find_duplicates dist m₂ db cid center radius cc) := by
  constructor
  · intro r hr
    rcases mem_find_surrounding.mp hr with ⟨s, hs, hw, hr⟩
    rcases stationWithin_iff.mp hw with ⟨p, hp, hd, hm, hms, hcc⟩
    refine ⟨s, hs, hr, hm, hms, hcc, p, hp, hd, ?_, ?_, ?_, ?_⟩ <;>
      simp [hr, toRow, hp]
  · intro m₁ m₂ cid hagree
    unfold find_duplicates
    by_cases hemp : (find_surrounding dist db center radius cc).isEmpty
    · simp [hemp]
    · simp only [hemp, if_false, Bool.false_eq_true]
      by_cases hlen : 2 ≤ (find_surrounding dist db center radius cc).length
      · simp only [hlen, if_true]
        cases hcur : ((find_surrounding dist db center radius cc).filter
            (fun r => r.station_id == cid)).head? with
        | none => simp
        | some cur =>
            simp only []
            congr 1
            apply List.filter_congr
            intro c hc
            exact hagree cur c (List.mem_filter.mp hc).1
      · simp [hlen]

/-- Witness for C6: over `dbRadius` (two in-radius stations, one 5000 m away),
any matcher agreeing with `m_all` on the query result gives the same outcome. -/
theorem C6_witness :
    find_duplicates demoDist m_all dbRadius 1 (0, 0) 100 "DE" =
      find_duplicates demoDist m_within dbRadius 1 (0, 0) 100 "DE" := by
  refine (C6_candidate_query_radius_and_flags demoDist dbRadius (0, 0) 100 "DE").2 m_all m_within 1 ?_
  intro cur c hc
  rw [show find_surrounding demoDist dbRadius (0, 0) 100 "DE" =
      [toRow demoDist (0, 0) (mkStation 1 "S1" "OSM" none (some (0, 0)) "DE"),
       toRow demoDist (0, 0) (mkStation 2 "S2" "OCM" none (some (0, 50)) "DE")] from rfl] at hc
  simp only [List.mem_cons, List.not_mem_nil, or_false] at hc
  rcases hc with h | h <;> subst h <;> rfl

/-- Claim C7: if the candidate query returns nothing, or only a single row,
`find_duplicates` returns an empty duplicate set; and a station already flagged
`is_duplicate` never reappears in any candidate query result, so a station
absorbed by an earlier cluster is never merged a second time. -/
theorem C7_find_duplicates_guard (dist : Point → Point → Nat) (m : Matcher) (db : List Station)
    (cid : Nat) (center : Point) (radius : Nat) (cc : String)
    (hnd : (db.map (·.id)).Nodup) :
    (find_surrounding dist db center radius cc = [] →
        find_duplicates dist m db cid center radius cc = ([], none)) ∧
    (∀ r, find_surrounding dist db center radius cc = [r] →
        (find_duplicates dist m db cid center radius cc).1 = []) ∧
    (∀ s ∈ db, s.merge_status = some "is_duplicate" →
        ∀ r ∈ find_surrounding dist db center radius cc, r.station_id ≠ s.id) := by
  refine ⟨?_, ?_, ?_⟩
  · intro h
    simp [find_duplicates, h]
  · intro r h
    simp [find_duplicates, h]
  · intro s hs hms r hr
    rcases mem_find_surrounding.mp hr with ⟨s', hs', hw, hr'⟩
    rcases stationWithin_iff.mp hw with ⟨p, _, _, _, hms', _⟩
    intro hid
    have : s' = s := by
      apply List.inj_on_of_nodup_map hnd hs' hs
      have : (toRow dist center s').station_id = s.id := by rw [← hr']; exact hid
      simpa [toRow] using this
    exact hms' (this ▸ hms)

/-- Witness for C7: the lone station of `dbSolo` yields an empty duplicate set. -/
theorem C7_witness :
    (find_duplicates demoDist m_all dbSolo 1 (5, 5) 100 "DE").1 = [] :=
  (C7_find_duplicates_guard demoDist m_all dbSolo 1 (5, 5) 100 "DE" (by decide)).2.1
    (toRow demoDist (5, 5) (mkStation 1 "S1" "OSM" none (some (5, 5)) "DE")) rfl

theorem gabp_cons_found {α : Type} {rows : List MergeRow} {get : MergeRow → Option α}
    {src : String} {rest : List String} {v : α} {l : List α}
    (h : (rows.filter (fun r => r.data_source == src)).filterMap get = v :: l) :
    get_attribute_by_priority rows get (src :: rest) = some v := by
  simp [get_attribute_by_priority, h]

theorem gabp_cons_empty {α : Type} {rows : List MergeRow} {get : MergeRow → Option α}
    {src : String} {rest : List String}
    (h : (rows.filter (fun r => r.data_source == src)).filterMap get = []) :
    get_attribute_by_priority rows get (src :: rest) =
      get_attribute_by_priority rows get rest := by
  simp [get_attribute_by_priority, h]

theorem gabp_none_of_all_none {α : Type} {rows : List MergeRow} {get : MergeRow → Option α}
    (h : ∀ r ∈ rows, get r = none) :
    ∀ pr, get_attribute_by_priority rows get pr = none
  | [] => rfl
  | src :: rest => by
      have he : (rows.filter (fun r => r.data_source == src)).filterMap get = [] := by
        rw [List.filterMap_eq_nil_iff]
        intro a ha
        exact h a (List.mem_filter.mp ha).1
      rw [gabp_cons_empty he]
      exact gabp_none_of_all_none h rest

theorem merge_frame_fields {gov cc : String} {fid : Nat} {rows : List MergeRow} {st : Station}
    (h : _merge_duplicates gov cc fid (.frame rows) = .ok st) :
    st.operator = get_attribute_by_priority rows (·.operator) [gov, "OCM", "OSM"] ∧
    st.point = get_attribute_by_priority rows (·.point) ["OSM", "OCM", gov] ∧
    st.source_id = "MERGED_" ++ String.intercalate "," (rows.map (·.source_id)) ∧
    st.data_source = String.intercalate "," (pdUnique (rows.map (·.data_source))) ∧
    st.is_merged = true ∧ st.merge_status = none ∧ st.source_stations = [] ∧
    st.country_code = cc := by
  cases hpt : get_attribute_by_priority rows (·.point) ["OSM", "OCM", gov] with
  | none => simp [_merge_duplicates, hpt] at h
  | some p =>
      simp only [_merge_duplicates, hpt, Except.ok.injEq] at h
      subst h
      simp [hpt]

/-- Claim C4: for a multi-member cluster, each scalar attribute of the merged
record is the first present value found when iterating members by source
priority — government source, then OCM, then OSM for the operator — while the
canonical point is resolved through the full chain OSM, then OCM, then
government; if no member has the attribute set, the merged record's attribute
is left unset. -/
theorem C4_attribute_priority_resolution (gov cc : String) (fid : Nat) (rows : List MergeRow) (st : Station)
    (h : _merge_duplicates gov cc fid (.frame rows) = .ok st) :
    ((∀ r ∈ rows, r.operator = none) → st.operator = none) ∧
    (∀ v l, (rows.filter (fun r => r.data_source == gov)).filterMap (·.operator) = v :: l →
        st.operator = some v) ∧
    ((rows.filter (fun r => r.data_source == gov)).filterMap (·.operator) = [] →
      ∀ v l, (rows.filter (fun r => r.data_source == "OCM")).filterMap (·.operator) = v :: l →
        st.operator = some v) ∧
    ((rows.filter (fun r => r.data_source == gov)).filterMap (·.operator) = [] →
      (rows.filter (fun r => r.data_source == "OCM")).filterMap (·.operator) = [] →
      ∀ v l, (rows.filter (fun r => r.data_source == "OSM")).filterMap (·.operator) = v :: l →
        st.operator = some v) ∧
    (∀ v l, (rows.filter (fun r => r.data_source == "OSM")).filterMap (·.point) = v :: l →
        st.point = some v) ∧
    ((rows.filter (fun r => r.data_source == "OSM")).filterMap (·.point) = [] →
      ∀ v l, (rows.filter (fun r => r.data_source == "OCM")).filterMap (·.point) = v :: l →
        st.point = some v) ∧
    ((rows.filter (fun r => r.data_source == "OSM")).filterMap (·.point) = [] →
      (rows.filter (fun r => r.data_source == "OCM")).filterMap (·.point) = [] →
      ∀ v l, (rows.filter (fun r => r.data_source == gov)).filterMap (·.point) = v :: l →
        st.point = some v) := by
  obtain ⟨hop, hpt, -, -, -, -, -, -⟩ := merge_frame_fields h
  refine ⟨?_, ?_, ?_, ?_, ?_, ?_, ?_⟩
  · intro hall
    rw [hop, gabp_none_of_all_none hall]
  · intro v l hgov
    rw [hop, gabp_cons_found hgov]
  · intro hgov v l hocm
    rw [hop, gabp_cons_empty hgov, gabp_cons_found hocm]
  · intro hgov hocm v l hosm
    rw [hop, gabp_cons_empty hgov, gabp_cons_empty hocm, gabp_cons_found hosm]
  · intro v l hosm
    rw [hpt, gabp_cons_found hosm]
  · intro hosm v l hocm
    rw [hpt, gabp_cons_empty hosm, gabp_cons_found hocm]
  · intro hosm hocm v l hgov
    rw [hpt, gabp_cons_empty hosm, gabp_cons_empty hocm, gabp_cons_found hgov]

/-- Witness for C4: on `rowsPrio` the operator resolves to the governmental
value and the point to the OSM value; on `rowsPtOcm` the point falls through
to OCM, on `rowsPtGov` past OCM to the governmental member; on `rowsNoOp`
the operator stays unset. -/
theorem C4_witness :
    _merge_duplicates "BNA" "DE" 7 (.frame rowsPrio) = Except.ok stPrio ∧
    stPrio.operator = some "bnaOp" ∧ stPrio.point = some (1, 2) ∧
    _merge_duplicates "BNA" "DE" 7 (.frame rowsPtOcm) = Except.ok stPtOcm ∧
    stPtOcm.point = some (3, 4) ∧
    _merge_duplicates "BNA" "DE" 7 (.frame rowsPtGov) = Except.ok stPtGov ∧
    stPtGov.point = some (5, 6) ∧
    _merge_duplicates "BNA" "DE" 7 (.frame rowsNoOp) = Except.ok stNoOp ∧
    stNoOp.operator = none := by
  refine ⟨rfl, ?_, ?_, rfl, ?_, rfl, ?_, rfl, ?_⟩
  · exact (C4_attribute_priority_resolution "BNA" "DE" 7 rowsPrio stPrio rfl).2.1 "bnaOp" [] rfl
  · exact (C4_attribute_priority_resolution "BNA" "DE" 7 rowsPrio stPrio rfl).2.2.2.2.1
      (1, 2) [] rfl
  · exact (C4_attribute_priority_resolution "BNA" "DE" 7 rowsPtOcm stPtOcm rfl).2.2.2.2.2.1
      rfl (3, 4) [] rfl
  · exact (C4_attribute_priority_resolution "BNA" "DE" 7 rowsPtGov stPtGov rfl).2.2.2.2.2.2
      rfl rfl (5, 6) [] rfl
  · exact (C4_attribute_priority_resolution "BNA" "DE" 7 rowsNoOp stNoOp rfl).1 (by decide)

/-- Claim C9: for a cluster whose only member is the seed station, the committed
merged record takes point, operator and source identifier directly from that
station, prefixes the source identifier with `MERGED_`, and sets the country
code and `is_merged = true` unconditionally. -/
theorem C9_single_member_cluster_merge (cfg : MergerConfig) (db : List Station) (sid : Nat) (center : Point)
    (cur : MergeRow) (p : Point)
    (hfd : find_duplicates cfg.dist cfg.matcher db sid center cfg.radius cfg.cc = ([], some cur))
    (hp : cur.point = some p) (hok : cfg.commitOk sid = true) :
    processSeed cfg db (sid, some center) =
      .ok (flagDuplicates [sid] db ++
        [{ id := freshId db, source_id := "MERGED_" ++ cur.source_id,
           data_source := cur.data_source, operator := cur.operator, point := some p,
           country_code := cfg.cc, is_merged := true, merge_status := none,
           address := none, charging := none, source_stations := [] }]) := by
  simp [processSeed, hfd, commitCluster, _merge_duplicates, hp, hok]

/-- Witness for C9: merging the lone station of `dbSolo` produces `dbSoloPost`. -/
theorem C9_witness :
    processSeed cfgDE dbSolo (1, some (5, 5)) = Except.ok dbSoloPost :=
  C9_single_member_cluster_merge cfgDE dbSolo 1 (5, 5)
    (toRow demoDist (5, 5) (mkStation 1 "S1" "OSM" none (some (5, 5)) "DE")) (5, 5)
    rfl rfl rfl

theorem mem_pdUniqueAux : ∀ (seen l : List String) (a : String),
    a ∈ pdUniqueAux seen l ↔ a ∈ l ∧ a ∉ seen
  | _, [], _ => by simp [pdUniqueAux]
  | seen, x :: xs, a => by
      by_cases hx : x ∈ seen
      · rw [pdUniqueAux, if_pos hx, mem_pdUniqueAux seen xs a]
        constructor
        · rintro ⟨h1, h2⟩; exact ⟨List.mem_cons_of_mem _ h1, h2⟩
        · rintro ⟨h1, h2⟩
          rcases List.mem_cons.mp h1 with h | h
          · exact absurd (h ▸ hx) h2
          · exact ⟨h, h2⟩
      · rw [pdUniqueAux, if_neg hx]
        simp only [List.mem_cons, mem_pdUniqueAux (x :: seen) xs a]
        constructor
        · rintro (h | ⟨h1, h2⟩)
          · subst h; exact ⟨Or.inl rfl, hx⟩
          · exact ⟨Or.inr h1, fun hc => h2 (Or.inr hc)⟩
        · rintro ⟨h1 | h1, h2⟩
          · exact Or.inl h1
          · by_cases hax : a = x
            · exact Or.inl hax
            · exact Or.inr ⟨h1, by simp [hax, h2]⟩

theorem pdUniqueAux_nodup : ∀ (seen l : List String), (pdUniqueAux seen l).Nodup
  | _, [] => by simp [pdUniqueAux]
  | seen, x :: xs => by
      by_cases hx : x ∈ seen
      · rw [pdUniqueAux, if_pos hx]
        exact pdUniqueAux_nodup seen xs
      · rw [pdUniqueAux, if_neg hx]
        refine List.nodup_cons.mpr ⟨?_, pdUniqueAux_nodup (x :: seen) xs⟩
        intro hc
        exact ((mem_pdUniqueAux _ _ _).mp hc).2 (List.mem_cons_self _ _)

theorem pdUnique_nodup (l : List String) : (pdUnique l).Nodup := pdUniqueAux_nodup [] l

theorem mem_pdUnique {l : List String} {a : String} : a ∈ pdUnique l ↔ a ∈ l := by
  rw [pdUnique, mem_pdUniqueAux]
  simp

/-- Claim C2 (amended): for a committed multi-member cluster the merged record's
`data_source` is the comma-joined member source names deduplicated keeping first
occurrences in discovery order (a duplicate-free list with exactly the member
source names), and its `source_id` is `MERGED_` followed by the comma-joined
member source identifiers in discovery order. -/
theorem C2_amended_merged_identifiers (cfg : MergerConfig) (db : List Station) (sid : Nat) (center : Point)
    (d : MergeRow) (ds : List MergeRow) (cur : MergeRow) (p : Point)
    (hfd : find_duplicates cfg.dist cfg.matcher db sid center cfg.radius cfg.cc =
      (d :: ds, some cur))
    (hpt : get_attribute_by_priority ((d :: ds) ++ [cur]) (·.point) ["OSM", "OCM", cfg.gov] =
      some p)
    (hok : cfg.commitOk sid = true) :
    processSeed cfg db (sid, some center) =
      .ok (flagDuplicates (((d :: ds) ++ [cur]).map (·.station_id)) db ++
        [{ id := freshId db,
           source_id := "MERGED_" ++
             String.intercalate "," (((d :: ds) ++ [cur]).map (·.source_id)),
           data_source :=
             String.intercalate "," (pdUnique (((d :: ds) ++ [cur]).map (·.data_source))),
           operator :=
             get_attribute_by_priority ((d :: ds) ++ [cur]) (·.operator) [cfg.gov, "OCM", "OSM"],
           point := some p, country_code := cfg.cc, is_merged := true, merge_status := none,
           address := none, charging := none, source_stations := [] }]) ∧
    (pdUnique (((d :: ds) ++ [cur]).map (·.data_source))).Nodup ∧
    (∀ a, a ∈ pdUnique (((d :: ds) ++ [cur]).map (·.data_source)) ↔
      a ∈ ((d :: ds) ++ [cur]).map (·.data_source)) := by
  refine ⟨?_, pdUnique_nodup _, fun a => mem_pdUnique⟩
  simp only [List.cons_append] at hpt
  simp [processSeed, hfd, commitCluster, _merge_duplicates, hpt, hok]

/-- Counterexample for C2 as stated: for the committed cluster of `dbMix` the
merged record's `data_source` is `OSM,BNA` — discovery order — while the
sorted-unique join of the same member source names is `BNA,OSM`. -/
theorem C2_counterexample :
    run cfgDE dbMix = Except.ok dbMixPost ∧
    ({ mkStation 3 "MERGED_S2,S1" "OSM,BNA" (some "opB") (some (0, 1)) "DE" with
        is_merged := true } : Station) ∈ dbMixPost ∧
    spec_sorted_unique_join ["OSM", "BNA"] = "BNA,OSM" ∧
    ("OSM,BNA" : String) ≠ "BNA,OSM" := by
  refine ⟨rfl, ?_, by decide, by decide⟩
  simp [dbMixPost]

/-- Claim C3 (amended): when geometry resolution for a multi-member cluster
yields no value for the canonical point, the uncaught error propagates out of
the orchestrator loop and aborts the whole run, not just that cluster. -/
theorem C3_amended_merge_error_aborts_run (cfg : MergerConfig) (db : List Station) (sid : Nat) (center : Point)
    (rest : List (Nat × Option Point)) (d : MergeRow) (ds : List MergeRow) (cur : MergeRow)
    (hfd : find_duplicates cfg.dist cfg.matcher db sid center cfg.radius cfg.cc =
      (d :: ds, some cur))
    (hpt : get_attribute_by_priority ((d :: ds) ++ [cur]) (·.point) ["OSM", "OCM", cfg.gov] =
      none) :
    runSeeds cfg db ((sid, some center) :: rest) = .error wktOfNoneError := by
  have hps : processSeed cfg db (sid, some center) = .error wktOfNoneError := by
    simp only [List.cons_append] at hpt
    simp [processSeed, hfd, commitCluster, _merge_duplicates, hpt]
  simp [runSeeds, hps]

/-- Witness for C3 (amended): the `FOO` cluster of `dbNoPrio` aborts the
remaining seed list. -/
theorem C3_witness :
    runSeeds cfgDE dbNoPrio [(1, some (0, 0)), (2, some (0, 1)), (3, some (1000000, 0))] =
      Except.error wktOfNoneError :=
  C3_amended_merge_error_aborts_run cfgDE dbNoPrio 1 (0, 0) [(2, some (0, 1)), (3, some (1000000, 0))]
    (toRow demoDist (0, 0) (mkStation 2 "X2" "FOO" none (some (0, 1)) "DE")) []
    (toRow demoDist (0, 0) (mkStation 1 "X1" "FOO" none (some (0, 0)) "DE"))
    rfl rfl

/-- Counterexample for C3 as stated: on `dbNoPrio` the run does not continue
past the failing cluster — it returns an error, never a committed state. -/
theorem C3_counterexample :
    run cfgDE dbNoPrio = Except.error wktOfNoneError ∧
    (run cfgDE dbNoPrio).toOption = none := ⟨rfl, rfl⟩

theorem processSeed_ok_cases (cfg : MergerConfig) (db : List Station)
    (seed : Nat × Option Point) (db' : List Station)
    (h : processSeed cfg db seed = .ok db') :
    db' = db ∨ ∃ ids input merged,
      _merge_duplicates cfg.gov cfg.cc (freshId db) input = .ok merged ∧
      cfg.commitOk seed.1 = true ∧
      db' = flagDuplicates ids db ++ [merged] := by
  rcases seed with ⟨sid, pt⟩
  cases pt with
  | none => simp [processSeed] at h
  | some center =>
      rcases hfd : find_duplicates cfg.dist cfg.matcher db sid center cfg.radius cfg.cc
        with ⟨dups, cur?⟩
      cases cur? with
      | none =>
          simp [processSeed, hfd] at h
          exact Or.inl h.symm
      | some cur =>
          cases dups with
          | nil =>
              cases hm : _merge_duplicates cfg.gov cfg.cc (freshId db) (.single cur) with
              | error e => simp [processSeed, hfd, commitCluster, hm] at h
              | ok merged =>
                  by_cases hok : cfg.commitOk sid = true
                  · simp [processSeed, hfd, commitCluster, hm, hok] at h
                    exact Or.inr ⟨[sid], .single cur, merged, hm, hok, h.symm⟩
                  · simp [processSeed, hfd, commitCluster, hm, hok] at h
                    exact Or.inl h.symm
          | cons d ds =>
              cases hm : _merge_duplicates cfg.gov cfg.cc (freshId db)
                  (.frame (d :: (ds ++ [cur]))) with
              | error e => simp [processSeed, hfd, commitCluster, hm] at h
              | ok merged =>
                  by_cases hok : cfg.commitOk sid = true
                  · simp [processSeed, hfd, commitCluster, hm, hok] at h
                    exact Or.inr ⟨_, _, merged, hm, hok, h.symm⟩
                  · simp [processSeed, hfd, commitCluster, hm, hok] at h
                    exact Or.inl h.symm

theorem merge_ok_fields {gov cc : String} {fid : Nat} {input : MergeInput} {st : Station}
    (h : _merge_duplicates gov cc fid input = .ok st) :
    st.is_merged = true ∧ st.merge_status = none ∧ st.source_stations = [] ∧
      st.country_code = cc ∧ st.id = fid := by
  cases input with
  | single row =>
      cases hp : row.point with
      | none => simp [_merge_duplicates, hp] at h
      | some p =>
          simp only [_merge_duplicates, hp, Except.ok.injEq] at h
          subst h
          simp
  | frame rows =>
      cases hpt : get_attribute_by_priority rows (·.point) ["OSM", "OCM", gov] with
      | none => simp [_merge_duplicates, hpt] at h
      | some p =>
          simp only [_merge_duplicates, hpt, Except.ok.injEq] at h
          subst h
          simp

theorem mem_flagDuplicates {ids : List Nat} {db : List Station} {s' : Station} :
    s' ∈ flagDuplicates ids db ↔
      ∃ s, s ∈ db ∧
        s' = (if ids.contains s.id then { s with merge_status := some "is_duplicate" } else s) := by
  simp only [flagDuplicates, List.mem_map]
  constructor
  · rintro ⟨s, hs, he⟩; exact ⟨s, hs, he.symm⟩
  · rintro ⟨s, hs, he⟩; exact ⟨s, hs, he.symm⟩

/-- Claim C10: when a cluster commits, an existing station changes at most its
`merge_status` (set to `is_duplicate`) — every other column, including
`is_merged`, is untouched — and any newly inserted row is a merged record with
`is_merged = true` and no `merge_status`. -/
theorem C10_members_only_merge_status_changes (cfg : MergerConfig) (db : List Station) (seed : Nat × Option Point)
    (db' : List Station) (h : processSeed cfg db seed = .ok db') :
    (∀ s ∈ db, s ∈ db' ∨
        ({ s with merge_status := some "is_duplicate" } : Station) ∈ db') ∧
    (∀ s' ∈ db', s' ∈ db ∨
        (∃ s, s ∈ db ∧ s' = { s with merge_status := some "is_duplicate" }) ∨
        (s'.is_merged = true ∧ s'.merge_status = none ∧ s'.source_stations = [])) := by
  rcases processSeed_ok_cases cfg db seed db' h with hdb | ⟨ids, input, merged, hm, -, hdb⟩
  · subst hdb
    exact ⟨fun s hs => Or.inl hs, fun s' hs' => Or.inl hs'⟩
  · subst hdb
    constructor
    · intro s hs
      by_cases hin : ids.contains s.id
      · refine Or.inr (List.mem_append_left _ ?_)
        rw [mem_flagDuplicates]
        exact ⟨s, hs, by rw [if_pos hin]⟩
      · refine Or.inl (List.mem_append_left _ ?_)
        rw [mem_flagDuplicates]
        exact ⟨s, hs, by rw [if_neg hin]⟩
    · intro s' hs'
      rcases List.mem_append.mp hs' with hs' | hs'
      · rcases mem_flagDuplicates.mp hs' with ⟨s, hs, he⟩
        by_cases hin : ids.contains s.id
        · rw [if_pos hin] at he
          exact Or.inr (Or.inl ⟨s, hs, he⟩)
        · rw [if_neg hin] at he
          exact Or.inl (he ▸ hs)
      · have : s' = merged := by simpa using hs'
        subst this
        obtain ⟨h1, h2, h3, -, -⟩ := merge_ok_fields hm
        exact Or.inr (Or.inr ⟨h1, h2, h3⟩)

/-- Witness for C10: committing the `dbPair` cluster preserves the first member
up to its `merge_status`. -/
theorem C10_witness :
    processSeed cfgDE dbPair (1, some (0, 0)) = Except.ok dbPairPost ∧
    (mkStation 1 "S1" "OSM" (some "opA") (some (0, 0)) "DE" ∈ dbPairPost ∨
      ({ mkStation 1 "S1" "OSM" (some "opA") (some (0, 0)) "DE" with
          merge_status := some "is_duplicate" } : Station) ∈ dbPairPost) :=
  ⟨rfl, (C10_members_only_merge_status_changes cfgDE dbPair (1, some (0, 0)) dbPairPost rfl).1 _
    (List.mem_cons_self _ _)⟩

/-- Claim C1 describes the spec's intent, but the code omits it: committing the
`dbPair` cluster flags both members `is_duplicate`, yet no row of the resulting
database carries any `MergedStationSource` entry — the provenance table is never
written (TODO left at `_merger.py` lines 102-103), so a flagged station's
identifier appears in zero provenance sets instead of exactly one. -/
theorem C1_no_merged_station_source_rows :
    run cfgDE dbPair = Except.ok dbPairPost ∧
    ({ mkStation 1 "S1" "OSM" (some "opA") (some (0, 0)) "DE" with
        merge_status := some "is_duplicate" } : Station) ∈ dbPairPost ∧
    (dbPairPost.filter (fun s => s.merge_status == some "is_duplicate")).length = 2 ∧
    (dbPairPost.map (·.source_stations)).flatten = ([] : List String) :=
  ⟨rfl, List.mem_cons_self _ _, rfl, rfl⟩

/-- Claim C5: when the storage commit of a cluster fails, the transaction is
rolled back leaving the database unchanged, and the orchestrator proceeds with
exactly the remaining seed stations, so previously committed clusters persist
and the run is never aborted by a commit failure. -/
theorem C5_commit_failure_isolated (cfg : MergerConfig) (db : List Station) (seed : Nat × Option Point)
    (rest : List (Nat × Option Point))
    (hfail : cfg.commitOk seed.1 = false)
    (hnoerr : ∀ e, processSeed cfg db seed ≠ .error e) :
    processSeed cfg db seed = .ok db ∧
      runSeeds cfg db (seed :: rest) = runSeeds cfg db rest := by
  have h1 : processSeed cfg db seed = .ok db := by
    rcases seed with ⟨sid, pt⟩
    cases pt with
    | none => exact absurd rfl (hnoerr _)
    | some center =>
        rcases hfd : find_duplicates cfg.dist cfg.matcher db sid center cfg.radius cfg.cc
          with ⟨dups, cur?⟩
        cases cur? with
        | none => simp [processSeed, hfd]
        | some cur =>
            cases dups with
            | nil =>
                cases hm : _merge_duplicates cfg.gov cfg.cc (freshId db) (.single cur) with
                | error e =>
                    exfalso
                    exact hnoerr e (by simp [processSeed, hfd, commitCluster, hm])
                | ok merged => simp [processSeed, hfd, commitCluster, hm, hfail]
            | cons d ds =>
                cases hm : _merge_duplicates cfg.gov cfg.cc (freshId db)
                    (.frame (d :: (ds ++ [cur]))) with
                | error e =>
                    exfalso
                    exact hnoerr e (by simp [processSeed, hfd, commitCluster, hm])
                | ok merged => simp [processSeed, hfd, commitCluster, hm, hfail]
  exact ⟨h1, by simp [runSeeds, h1]⟩

/-- Witness for C5: with every commit failing, processing the `dbSolo` seed
leaves the database unchanged and the run continues. -/
theorem C5_witness :
    processSeed cfgDEfail dbSolo (1, some (5, 5)) = Except.ok dbSolo ∧
      runSeeds cfgDEfail dbSolo [(1, some (5, 5)), (2, some (9, 9))] =
        runSeeds cfgDEfail dbSolo [(2, some (9, 9))] :=
  C5_commit_failure_isolated cfgDEfail dbSolo (1, some (5, 5)) [(2, some (9, 9))] rfl
    (fun e h => by rw [show processSeed cfgDEfail dbSolo (1, some (5, 5)) =
      Except.ok dbSolo from rfl] at h; exact Except.noConfusion h)

theorem le_foldr_max : ∀ (l : List Nat) (a : Nat), a ∈ l → a ≤ l.foldr (fun a b => max a b) 0
  | b :: bs, a, h => by
      rcases List.mem_cons.mp h with h | h
      · subst h; exact le_max_left _ _
      · exact le_trans (le_foldr_max bs a h) (le_max_right _ _)

theorem id_lt_freshId {db : List Station} {s : Station} (h : s ∈ db) : s.id < freshId db :=
  Nat.lt_succ_of_le (le_foldr_max _ _ (List.mem_map_of_mem _ h))

theorem flagDuplicates_map_id (ids : List Nat) (db : List Station) :
    (flagDuplicates ids db).map (·.id) = db.map (·.id) := by
  rw [flagDuplicates, List.map_map]
  apply List.map_congr_left
  intro s _
  simp only [Function.comp_apply]
  split <;> rfl

theorem processSeed_nodup {cfg : MergerConfig} {db : List Station} {seed : Nat × Option Point}
    {db' : List Station} (h : processSeed cfg db seed = .ok db')
    (hnd : (db.map (·.id)).Nodup) : (db'.map (·.id)).Nodup := by
  rcases processSeed_ok_cases cfg db seed db' h with rfl | ⟨ids, input, merged, hm, -, rfl⟩
  · exact hnd
  · rw [List.map_append, flagDuplicates_map_id]
    have hid : merged.id = freshId db := (merge_ok_fields hm).2.2.2.2
    simp only [List.map_cons, List.map_nil]
    rw [List.nodup_append]
    refine ⟨hnd, List.nodup_singleton _, ?_⟩
    intro a ha hb
    simp only [List.mem_singleton] at hb
    subst hb
    rcases List.mem_map.mp ha with ⟨s, hs, hsid⟩
    have := id_lt_freshId hs
    rw [hsid, hid] at this
    exact lt_irrefl _ this

theorem processSeed_preserve {cfg : MergerConfig} {db : List Station}
    {seed : Nat × Option Point} {db' : List Station}
    (h : processSeed cfg db seed = .ok db') :
    ∀ s' ∈ db', s'.is_merged = true ∨
      ∃ s, s ∈ db ∧ (s' = s ∨ s' = { s with merge_status := some "is_duplicate" }) := by
  intro s' hs'
  rcases processSeed_ok_cases cfg db seed db' h with rfl | ⟨ids, input, merged, hm, -, rfl⟩
  · exact Or.inr ⟨s', hs', Or.inl rfl⟩
  · rcases List.mem_append.mp hs' with hmem | hmem
    · rcases mem_flagDuplicates.mp hmem with ⟨s, hs, he⟩
      by_cases hin : ids.contains s.id
      · rw [if_pos hin] at he
        exact Or.inr ⟨s, hs, Or.inr he⟩
      · rw [if_neg hin] at he
        exact Or.inr ⟨s, hs, Or.inl he⟩
    · have : s' = merged := by simpa using hmem
      subst this
      exact Or.inl (merge_ok_fields hm).1

theorem runSeeds_preserve {cfg : MergerConfig} :
    ∀ (seeds : List (Nat × Option Point)) (db db' : List Station),
    runSeeds cfg db seeds = .ok db' →
    ∀ s' ∈ db', s'.is_merged = true ∨
      ∃ s, s ∈ db ∧ (s' = s ∨ s' = { s with merge_status := some "is_duplicate" })
  | [], db, db', h => by
      simp only [runSeeds, Except.ok.injEq] at h
      subst h
      exact fun s' hs' => Or.inr ⟨s', hs', Or.inl rfl⟩
  | sd :: rest, db, db', h => by
      intro s' hs'
      rw [runSeeds] at h
      cases hps : processSeed cfg db sd with
      | error e => rw [hps] at h; exact absurd h (by simp)
      | ok db₁ =>
          rw [hps] at h
          rcases runSeeds_preserve rest db₁ db' h s' hs' with hm | ⟨s₁, hs₁, hcase₁⟩
          · exact Or.inl hm
          · rcases processSeed_preserve hps s₁ hs₁ with hm₁ | ⟨s₀, hs₀, hcase₀⟩
            · rcases hcase₁ with rfl | rfl
              · exact Or.inl hm₁
              · exact Or.inl hm₁
            · rcases hcase₁ with h1 | h1 <;> rcases hcase₀ with h0 | h0
              · exact Or.inr ⟨s₀, hs₀, Or.inl (h1.trans h0)⟩
              · exact Or.inr ⟨s₀, hs₀, Or.inr (h1.trans h0)⟩
              · exact Or.inr ⟨s₀, hs₀, Or.inr (by rw [h1, h0])⟩
              · exact Or.inr ⟨s₀, hs₀, Or.inr (by rw [h1, h0])⟩

theorem runSeeds_ok_isSome {cfg : MergerConfig} :
    ∀ (seeds : List (Nat × Option Point)) (db db' : List Station),
    runSeeds cfg db seeds = .ok db' → ∀ sd ∈ seeds, sd.2.isSome
  | [], _, _, _ => by simp
  | sd :: rest, db, db', h => by
      intro x hx
      rw [runSeeds] at h
      cases hps : processSeed cfg db sd with
      | error e => rw [hps] at h; exact absurd h (by simp)
      | ok db₁ =>
          rw [hps] at h
          rcases List.mem_cons.mp hx with rfl | hx
          · rcases x with ⟨i, pt⟩
            cases pt with
            | none => rw [processSeed] at hps; exact absurd hps (by simp)
            | some c => rfl
          · exact runSeeds_ok_isSome rest db₁ db' h x hx

theorem mem_insertById {x y : Nat × Option Point} :
    ∀ {l : List (Nat × Option Point)}, y ∈ insertById x l ↔ y = x ∨ y ∈ l
  | [] => by simp [insertById]
  | z :: zs => by
      rw [insertById]
      split
      · simp
      · rw [List.mem_cons, List.mem_cons, mem_insertById (l := zs)]
        tauto

theorem mem_sortById {x : Nat × Option Point} :
    ∀ {l : List (Nat × Option Point)}, x ∈ sortById l ↔ x ∈ l
  | [] => Iff.rfl
  | z :: zs => by
      rw [sortById, mem_insertById, List.mem_cons, mem_sortById (l := zs)]

theorem mem_seedsOf {s : Station} {db : List Station} {cc : String}
    (hs : s ∈ db) (hm : s.is_merged = false) (hcc : s.country_code = cc) :
    (s.id, s.point) ∈ seedsOf cc db := by
  rw [seedsOf, mem_sortById]
  exact List.mem_map_of_mem _ (List.mem_filter.mpr ⟨hs, by simp [hm, hcc]⟩)

theorem head_eq_of_all_eq {α : Type} {l : List α} {a : α} (hne : l ≠ [])
    (hall : ∀ x ∈ l, x = a) : l.head? = some a := by
  cases l with
  | nil => exact absurd rfl hne
  | cons b bs => rw [List.head?_cons, hall b (List.mem_cons_self _ _)]

theorem find_duplicates_snd {dist : Point → Point → Nat} {m : Matcher} {db : List Station}
    {sid : Nat} {center : Point} {radius : Nat} {cc : String} {row : MergeRow}
    (hrow : row.station_id = sid)
    (hmem : row ∈ find_surrounding dist db center radius cc)
    (huniq : ∀ r ∈ find_surrounding dist db center radius cc, r.station_id = sid → r = row) :
    (find_duplicates dist m db sid center radius cc).2 = some row := by
  have hnil : find_surrounding dist db center radius cc ≠ [] := List.ne_nil_of_mem hmem
  have hne : (find_surrounding dist db center radius cc).isEmpty = false := by
    cases h : (find_surrounding dist db center radius cc).isEmpty
    · rfl
    · exact absurd (List.isEmpty_iff.mp h) hnil
  have hmemF : row ∈ (find_surrounding dist db center radius cc).filter
      (fun r => r.station_id == sid) :=
    List.mem_filter.mpr ⟨hmem, by simp [hrow]⟩
  have hallF : ∀ x ∈ (find_surrounding dist db center radius cc).filter
      (fun r => r.station_id == sid), x = row := by
    intro x hx
    rcases List.mem_filter.mp hx with ⟨hx1, hx2⟩
    exact huniq x hx1 (by simpa using hx2)
  have hhead : ((find_surrounding dist db center radius cc).filter
      (fun r => r.station_id == sid)).head? = some row :=
    head_eq_of_all_eq (List.ne_nil_of_mem hmemF) hallF
  unfold find_duplicates
  by_cases hlen : 2 ≤ (find_surrounding dist db center radius cc).length <;>
    simp [hne, hhead, hlen]

theorem not_mem_flag_append {s merged : Station} {ids : List Nat} {db : List Station}
    (hfl : s.merge_status ≠ some "is_duplicate")
    (hin : ids.contains s.id = true)
    (hnm : s.is_merged = false) (hmm : merged.is_merged = true) :
    s ∉ flagDuplicates ids db ++ [merged] := by
  intro hmem
  rcases List.mem_append.mp hmem with hmem | hmem
  · rcases mem_flagDuplicates.mp hmem with ⟨s₀, hs₀, he⟩
    by_cases hcon : ids.contains s₀.id
    · rw [if_pos hcon] at he
      exact hfl (congrArg Station.merge_status he)
    · rw [if_neg hcon] at he
      rw [he] at hin
      exact hcon hin
  · have he : s = merged := by simpa using hmem
    rw [he, hmm] at hnm
    exact Bool.noConfusion hnm

theorem processSeed_unflagged_notMem {cfg : MergerConfig} {db : List Station} {s : Station}
    {db' : List Station}
    (hc : ∀ i, cfg.commitOk i = true) (hd0 : ∀ p, cfg.dist p p = 0)
    (hnd : (db.map (·.id)).Nodup)
    (hs : s ∈ db) (hm : s.is_merged = false) (hcc : s.country_code = cfg.cc)
    (hfl : s.merge_status ≠ some "is_duplicate")
    (h : processSeed cfg db (s.id, s.point) = .ok db') :
    s ∉ db' := by
  cases hp : s.point with
  | none =>
      rw [hp] at h
      rw [processSeed] at h
      exact absurd h (by simp)
  | some p =>
      have hw : stationWithin cfg.dist p cfg.radius cfg.cc s = true :=
        stationWithin_iff.mpr ⟨p, hp, by rw [hd0]; exact Nat.zero_le _, hm, hfl, hcc⟩
      have hmem : toRow cfg.dist p s ∈ find_surrounding cfg.dist db p cfg.radius cfg.cc :=
        mem_find_surrounding.mpr ⟨s, hs, hw, rfl⟩
      have huniq : ∀ r ∈ find_surrounding cfg.dist db p cfg.radius cfg.cc,
          r.station_id = s.id → r = toRow cfg.dist p s := by
        intro r hr hid
        rcases mem_find_surrounding.mp hr with ⟨s', hs', hw', rfl⟩
        have : s' = s := List.inj_on_of_nodup_map hnd hs' hs (by simpa [toRow] using hid)
        rw [this]
      have hsnd := find_duplicates_snd (m := cfg.matcher)
        (show (toRow cfg.dist p s).station_id = s.id from rfl) hmem huniq
      rw [hp] at h
      rcases hfd : find_duplicates cfg.dist cfg.matcher db s.id p cfg.radius cfg.cc
        with ⟨dups, cur?⟩
      rw [hfd] at hsnd
      simp only at hsnd
      subst hsnd
      cases dups with
      | nil =>
          have hok := hc s.id
          have hpt : (toRow cfg.dist p s).point = some p := by simp [toRow, hp]
          simp only [processSeed, hfd, commitCluster, _merge_duplicates, hpt, hok,
            if_true, Except.ok.injEq] at h
          subst h
          exact not_mem_flag_append hfl (List.elem_eq_true_of_mem (List.mem_singleton.mpr rfl))
            hm rfl
      | cons d ds =>
          have hok := hc s.id
          cases hmg : _merge_duplicates cfg.gov cfg.cc (freshId db)
              (.frame (d :: (ds ++ [toRow cfg.dist p s]))) with
          | error e =>
              simp only [processSeed, hfd, commitCluster, List.cons_append, hmg] at h
              exact absurd h (by simp)
          | ok merged =>
              simp only [processSeed, hfd, commitCluster, List.cons_append, hmg, hok,
                if_true, Except.ok.injEq] at h
              subst h
              refine not_mem_flag_append hfl (List.elem_eq_true_of_mem ?_) hm
                (merge_ok_fields hmg).1
              have : (toRow cfg.dist p s).station_id = s.id := rfl
              rw [← this]
              exact List.mem_map_of_mem _ (by simp)

theorem runSeeds_flags {cfg : MergerConfig}
    (hc : ∀ i, cfg.commitOk i = true) (hd0 : ∀ p, cfg.dist p p = 0) :
    ∀ (seeds : List (Nat × Option Point)) (db db' : List Station),
    runSeeds cfg db seeds = .ok db' →
    (db.map (·.id)).Nodup →
    (∀ s ∈ db, s.is_merged = false → s.country_code = cfg.cc →
        s.merge_status ≠ some "is_duplicate" → (s.id, s.point) ∈ seeds) →
    ∀ s ∈ db', s.is_merged = false → s.country_code = cfg.cc →
        s.merge_status = some "is_duplicate"
  | [], db, db', h, hnd, hcov => by
      simp only [runSeeds, Except.ok.injEq] at h
      subst h
      intro s hs hm hcc
      by_contra hfl
      exact absurd (hcov s hs hm hcc hfl) (List.not_mem_nil _)
  | sd :: rest, db, db', h, hnd, hcov => by
      rw [runSeeds] at h
      cases hps : processSeed cfg db sd with
      | error e => rw [hps] at h; exact absurd h (by simp)
      | ok db₁ =>
          rw [hps] at h
          refine runSeeds_flags hc hd0 rest db₁ db' h (processSeed_nodup hps hnd) ?_
          intro s hs₁ hm hcc hfl
          rcases processSeed_preserve hps s hs₁ with hmg | ⟨s₀, hs₀, hcase⟩
          · rw [hmg] at hm; exact Bool.noConfusion hm
          · have hsdb : s ∈ db := by
              rcases hcase with rfl | rfl
              · exact hs₀
              · exact absurd rfl hfl
            rcases List.mem_cons.mp (hcov s hsdb hm hcc hfl) with hsd | hrest
            · exfalso
              rw [← hsd] at hps
              exact processSeed_unflagged_notMem hc hd0 hnd hsdb hm hcc hfl hps hs₁
            · exact hrest

theorem runSeeds_id {cfg : MergerConfig} {db : List Station} :
    ∀ (seeds : List (Nat × Option Point)),
    (∀ sd ∈ seeds, processSeed cfg db sd = .ok db) →
    runSeeds cfg db seeds = .ok db
  | [], _ => rfl
  | sd :: rest, hall => by
      rw [runSeeds, hall sd (List.mem_cons_self _ _)]
      exact runSeeds_id rest (fun x hx => hall x (List.mem_cons_of_mem _ hx))

theorem run_fixpoint {cfg : MergerConfig} {db : List Station}
    (hall : ∀ s ∈ db, s.is_merged = false → s.country_code = cfg.cc →
        s.merge_status = some "is_duplicate" ∧ s.point.isSome) :
    run cfg db = .ok db := by
  have hsur : ∀ c : Point, find_surrounding cfg.dist db c cfg.radius cfg.cc = [] := by
    intro c
    rw [find_surrounding]
    have : db.filter (stationWithin cfg.dist c cfg.radius cfg.cc) = [] := by
      rw [List.filter_eq_nil_iff]
      intro s hs hw
      rcases stationWithin_iff.mp hw with ⟨p, hp, -, hm, hfl, hcc⟩
      exact hfl (hall s hs hm hcc).1
    rw [this, List.map_nil]
  apply runSeeds_id
  intro sd hsd
  rw [seedsOf, mem_sortById] at hsd
  rcases List.mem_map.mp hsd with ⟨s, hsf, hsd'⟩
  rcases List.mem_filter.mp hsf with ⟨hs, hflt⟩
  have hmc : s.is_merged = false ∧ s.country_code = cfg.cc := by simpa using hflt
  have hps : s.point.isSome := (hall s hs hmc.1 hmc.2).2
  rcases Option.isSome_iff_exists.mp hps with ⟨c, hpc⟩
  rw [← hsd', hpc]
  have hfd : find_duplicates cfg.dist cfg.matcher db s.id c cfg.radius cfg.cc = ([], none) := by
    unfold find_duplicates
    simp [hsur c]
  simp [processSeed, hfd]

/-- Claim C8: over a distance function with zero self-distance and a store with
distinct primary keys, a fully committed run flags every station it processed,
so running the orchestrator again over its output changes nothing at all — in
particular no additional merged records are produced. -/
theorem C8_second_run_adds_nothing (cfg : MergerConfig) (db0 db1 : List Station)
    (hc : ∀ i, cfg.commitOk i = true) (hd0 : ∀ p, cfg.dist p p = 0)
    (hnd : (db0.map (·.id)).Nodup)
    (h1 : run cfg db0 = .ok db1) :
    run cfg db1 = .ok db1 := by
  have h1' : runSeeds cfg db0 (seedsOf cfg.cc db0) = .ok db1 := h1
  apply run_fixpoint
  intro s hs hm hcc
  constructor
  · exact runSeeds_flags hc hd0 (seedsOf cfg.cc db0) db0 db1 h1' hnd
      (fun t ht htm htc _ => mem_seedsOf ht htm htc) s hs hm hcc
  · rcases runSeeds_preserve (seedsOf cfg.cc db0) db0 db1 h1' s hs with hmg | ⟨s₀, hs₀, hcase⟩
    · rw [hmg] at hm; exact Bool.noConfusion hm
    · have hm₀ : s₀.is_merged = false := by
        rcases hcase with rfl | rfl
        · exact hm
        · simpa using hm
      have hcc₀ : s₀.country_code = cfg.cc := by
        rcases hcase with rfl | rfl
        · exact hcc
        · simpa using hcc
      have hpt₀ : s₀.point = s.point := by
        rcases hcase with rfl | rfl
        · rfl
        · rfl
      have hseed := mem_seedsOf hs₀ hm₀ hcc₀
      have hsome : s₀.point.isSome :=
        runSeeds_ok_isSome (seedsOf cfg.cc db0) db0 db1 h1' _ hseed
      rw [hpt₀] at hsome
      exact hsome

/-- Witness for C8: rerunning the merger over `dbSoloPost`, the committed output
of a run over `dbSolo`, returns it unchanged. -/
theorem C8_witness : run cfgDE dbSoloPost = Except.ok dbSoloPost :=
  C8_second_run_adds_nothing cfgDE dbSolo dbSoloPost (fun _ => rfl)
    (fun p => by simp [cfgDE, demoDist]) (by decide) rfl

/-- Witness for C2 (amended): committing the `dbMix` cluster produces the
merged record of `dbMixPost`, whose source-name list is duplicate-free. -/
theorem C2_witness :
    processSeed cfgDE dbMix (1, some (0, 0)) = Except.ok dbMixPost ∧
    (pdUnique ["OSM", "BNA"]).Nodup :=
  ⟨(C2_amended_merged_identifiers cfgDE dbMix 1 (0, 0)
      (toRow demoDist (0, 0) (mkStation 2 "S2" "OSM" none (some (0, 1)) "DE")) []
      (toRow demoDist (0, 0) (mkStation 1 "S1" "BNA" (some "opB") (some (0, 0)) "DE"))
      (0, 1) rfl rfl rfl).1,
    (C2_amended_merged_identifiers cfgDE dbMix 1 (0, 0)
      (toRow demoDist (0, 0) (mkStation 2 "S2" "OSM" none (some (0, 1)) "DE")) []
      (toRow demoDist (0, 0) (mkStation 1 "S1" "BNA" (some "opB") (some (0, 0)) "DE"))
      (0, 1) rfl rfl rfl).2.1⟩
